import Mathlib

/-!
Shallow embedding of the rsnd pipeline (src/main.rs): a four-stage
downloader for an audio-on-demand catalog page.  Pure string processing
(sanitization, filename formatting, cache-key derivation, JSON field
extraction) is translated directly; effectful code (HTTP, filesystem) is
embedded with explicit state passing: the filesystem is an association
list from paths to contents, and the network is an oracle
`String → Except Nat String` mapping a URL either to a failing HTTP
status code or to a response body.  `Option`/`Except` model fallible
Rust code; `Option.none` on `extractOptions` models a Rust panic
(`expect`/`unwrap`).  Character classes (`\w`, `\s`) and lowercasing are
modelled at ASCII precision (the Rust code uses Unicode-aware `regex`
and `str::to_lowercase`; every concrete input in this development is
ASCII, where the two coincide).
-/

/-- ASCII word character, modelling regex `\w` on the ASCII plane:
letters, digits, underscore (src/main.rs line 175, `[^\w\s-]`). -/
def isWordChar (c : Char) : Bool :=
  decide (97 ≤ c.toNat ∧ c.toNat ≤ 122) || decide (65 ≤ c.toNat ∧ c.toNat ≤ 90) ||
    decide (48 ≤ c.toNat ∧ c.toNat ≤ 57) || decide (c.toNat = 95)

/-- ASCII whitespace, modelling regex `\s` on the ASCII plane:
space, tab, newline, carriage return, vertical tab, form feed. -/
def isSpaceChar (c : Char) : Bool :=
  c == ' ' || c == '\t' || c == '\n' || c == '\r' ||
    decide (c.toNat = 11) || decide (c.toNat = 12)

/-- Lowercasing of one character (ASCII range of `str::to_lowercase`). -/
def toLowerChar (c : Char) : Char :=
  if 65 ≤ c.toNat ∧ c.toNat ≤ 90 then Char.ofNat (c.toNat + 32) else c

/-- One step of `re.replace_all(&metadata.title, "_")` with
`re = [^\w\s-]` (src/main.rs lines 175-176): a character that is not a
word character, whitespace, or hyphen becomes an underscore. -/
def sanitizeChar (c : Char) : Char :=
  if isWordChar c || isSpaceChar c || c == '-' then c else '_'

/-- Title sanitization from `download_audio` (src/main.rs lines 175-176):
replace every character matching `[^\w\s-]` by `_`, then lowercase the
whole string.  Both stages are character-wise maps. -/
def sanitize (s : String) : String :=
  String.mk ((s.data.map sanitizeChar).map toLowerChar)

/-- Rust `format!("{:03}", idx)`: decimal representation of `idx`,
left-padded with zeros to a minimum width of 3. -/
def format3 (n : Nat) : String :=
  let s := Nat.repr n
  if s.length < 3 then String.mk (List.replicate (3 - s.length) '0') ++ s else s

/-- Resolved episode metadata (struct `AudioMetadata`, src/main.rs
lines 35-38). -/
structure AudioMetadata where
  url : String
  title : String
  deriving Repr, DecidableEq

/-- Output file name `format!("{:03} - {}.mp3", idx, sanitized_title)`
(src/main.rs line 177), applied to the raw title. -/
def outputFileName (idx : Nat) (title : String) : String :=
  format3 idx ++ " - " ++ sanitize title ++ ".mp3"

/-- Output path `folder.join(...)` (src/main.rs line 177). -/
def outputPath (folder : String) (m : AudioMetadata) (idx : Nat) : String :=
  folder ++ "/" ++ outputFileName idx m.title

/-- Suffix of a character list after its last `'/'`; `none` when no
`'/'` occurs.  Models the second component of Rust `rsplit_once('/')`. -/
def afterLastSlashList : List Char → Option (List Char)
  | [] => none
  | a :: rest =>
    match afterLastSlashList rest with
    | some r => some r
    | none => if a == '/' then some rest else none

/-- Substring of `s` after the last `'/'` (Rust `rsplit_once('/')`,
src/main.rs lines 42-44 and 111-113). -/
def afterLastSlash (s : String) : Option String :=
  (afterLastSlashList s.data).map String.mk

/-- JSON values as produced by `serde_json` on the documents this
program consumes (numbers restricted to integers, which is all the
development evaluates). -/
inductive Json where
  | null
  | bool (b : Bool)
  | num (n : Int)
  | str (s : String)
  | arr (elems : List Json)
  | obj (fields : List (String × Json))

/-- Drop leading JSON whitespace. -/
def skipWs (l : List Char) : List Char :=
  l.dropWhile (fun c => c == ' ' || c == '\t' || c == '\n' || c == '\r')

/-- ASCII digit test. -/
def isDigitCh (c : Char) : Bool :=
  decide (48 ≤ c.toNat) && decide (c.toNat ≤ 57)

/-- Read a maximal run of digits as a natural number, returning the rest. -/
def readDigits (l : List Char) : Nat × List Char :=
  ((l.takeWhile isDigitCh).foldl (fun a c => a * 10 + (c.toNat - 48)) 0,
    l.dropWhile isDigitCh)

/-- Body of a JSON string literal after the opening quote, with the
common escapes; fuel-indexed to stay structurally recursive. -/
def parseStrBody : Nat → List Char → List Char → Option (String × List Char)
  | 0, _, _ => none
  | _ + 1, [], _ => none
  | f + 1, c :: rest, acc =>
    if c == '"' then some (String.mk acc.reverse, rest)
    else if c == '\\' then
      match rest with
      | [] => none
      | e :: rest2 =>
        if e == '"' then parseStrBody f rest2 ('"' :: acc)
        else if e == '\\' then parseStrBody f rest2 ('\\' :: acc)
        else if e == '/' then parseStrBody f rest2 ('/' :: acc)
        else if e == 'n' then parseStrBody f rest2 ('\n' :: acc)
        else if e == 't' then parseStrBody f rest2 ('\t' :: acc)
        else if e == 'r' then parseStrBody f rest2 ('\r' :: acc)
        else none
    else parseStrBody f rest (c :: acc)

mutual

/-- One JSON value (fuel-indexed recursive-descent parser modelling
`serde_json::from_str` on this program's documents). -/
def jsonVal : Nat → List Char → Option (Json × List Char)
  | 0, _ => none
  | f + 1, l =>
    match skipWs l with
    | 't' :: 'r' :: 'u' :: 'e' :: r => some (Json.bool true, r)
    | 'f' :: 'a' :: 'l' :: 's' :: 'e' :: r => some (Json.bool false, r)
    | 'n' :: 'u' :: 'l' :: 'l' :: r => some (Json.null, r)
    | c :: rest =>
      if c == '"' then
        match parseStrBody (rest.length + 1) rest [] with
        | some (s, r) => some (Json.str s, r)
        | none => none
      else if c == '\x7b' then
        match jsonMembers f true rest with
        | some (ms, r) => some (Json.obj ms, r)
        | none => none
      else if c == '[' then
        match jsonElems f true rest with
        | some (es, r) => some (Json.arr es, r)
        | none => none
      else if c == '-' then
        match rest with
        | d :: _ =>
          if isDigitCh d then
            let p := readDigits rest
            some (Json.num (-(p.1 : Int)), p.2)
          else none
        | [] => none
      else if isDigitCh c then
        let p := readDigits (c :: rest)
        some (Json.num (p.1 : Int), p.2)
      else none
    | [] => none

/-- Members of a JSON object after the opening brace; `first` permits an
immediately closing brace (empty object) but forbids a trailing comma. -/
def jsonMembers : Nat → Bool → List Char → Option (List (String × Json) × List Char)
  | 0, _, _ => none
  | f + 1, first, l =>
    match skipWs l with
    | c :: rest =>
      if first && c == '\x7d' then some ([], rest)
      else if c == '"' then
        match parseStrBody (rest.length + 1) rest [] with
        | some (k, r1) =>
          match skipWs r1 with
          | ':' :: r2 =>
            match jsonVal f r2 with
            | some (v, r3) =>
              match skipWs r3 with
              | ',' :: r4 =>
                match jsonMembers f false r4 with
                | some (ms, r5) => some ((k, v) :: ms, r5)
                | none => none
              | '\x7d' :: r4 => some ([(k, v)], r4)
              | _ => none
            | none => none
          | _ => none
        | none => none
      else none
    | [] => none

/-- Elements of a JSON array after the opening bracket. -/
def jsonElems : Nat → Bool → List Char → Option (List Json × List Char)
  | 0, _, _ => none
  | f + 1, first, l =>
    match skipWs l with
    | c :: rest =>
      if first && c == ']' then some ([], rest)
      else
        match jsonVal f (c :: rest) with
        | some (v, r1) =>
          match skipWs r1 with
          | ',' :: r2 =>
            match jsonElems f false r2 with
            | some (es, r3) => some (v :: es, r3)
            | none => none
          | ']' :: r2 => some ([v], r2)
          | _ => none
        | none => none
    | [] => none

end

/-- Whole-document JSON parse: one value, then only trailing whitespace. -/
def Json.parse (s : String) : Option Json :=
  match jsonVal (2 * s.data.length + 2) s.data with
  | some (j, r) => if (skipWs r).isEmpty then some j else none
  | none => none

/-- Field lookup in a parsed JSON object; the last occurrence of a key
wins, matching `serde_json`'s `HashMap` insertion semantics. -/
def getField (fields : List (String × Json)) (k : String) : Option Json :=
  (fields.reverse.find? (fun p => p.1 == k)).map (fun p => p.2)

/-- `serde_json::Value` bracket indexing `value[key]`: field of an
object if present, `Null` otherwise (also on non-objects). -/
def Json.index (j : Json) (k : String) : Json :=
  match j with
  | Json.obj fields =>
    match getField fields k with
    | some v => v
    | none => Json.null
  | _ => Json.null

/-- `Value::as_str`: the payload of a JSON string, `none` otherwise. -/
def Json.asStr : Json → Option String
  | Json.str s => some s
  | _ => none

/-- An HTML element after parsing, as the `scraper` crate exposes it to
`extract_options`: tag name and attribute list.  A document is the list
of its elements in document order (HTML parsing itself is the external
`scraper` collaborator). -/
structure Element where
  tag : String
  attrs : List (String × String)
  deriving Repr, DecidableEq

/-- Attribute lookup, `element.value().attr(name)`. -/
def getAttr (e : Element) (name : String) : Option String :=
  ((e.attrs.find? (fun p => p.1 == name)).map (fun p => p.2))

/-- `extract_options` (src/main.rs lines 85-102): select the
`rps-play-with-labels` elements in document order; for each one carrying
an `options` attribute, parse it as a JSON object and contribute the
string value of its `url` key.  Elements without the attribute or
without the key are skipped.  `none` models a panic: malformed JSON or a
non-object makes `expect` panic, and a non-string `url` value makes
`as_str().unwrap()` panic. -/
def extractOptions : List Element → Option (List String)
  | [] => some []
  | e :: rest =>
    if e.tag == "rps-play-with-labels" then
      match getAttr e "options" with
      | some s =>
        match Json.parse s with
        | some (Json.obj fields) =>
          match getField fields "url" with
          | some v =>
            match v.asStr with
            | some u => (extractOptions rest).map (fun us => u :: us)
            | none => none
          | none => extractOptions rest
        | _ => none
      | none => extractOptions rest
    else extractOptions rest

/-- The string value of the `url` key of a matching element's `options`
JSON, when all of tag, attribute, object and string value are present;
`none` otherwise.  Used to state extraction as the specification words
it. -/
def elemUrl (e : Element) : Option String :=
  if e.tag == "rps-play-with-labels" then
    match getAttr e "options" with
    | some s =>
      match Json.parse s with
      | some (Json.obj fields) =>
        match getField fields "url" with
        | some (Json.str u) => some u
        | _ => none
      | _ => none
    | none => none
  else none

/-- Extraction as the specification words it: the string values of the
`url` key of each matching element's `options` JSON, in document order,
skipping elements without the attribute or without the key.  Stated for
comparison with `extractOptions`, which is translated from the source. -/
def specExtractUrls (doc : List Element) : List String :=
  doc.filterMap elemUrl

/-- An element whose `options` attribute, when present, parses as a JSON
object whose `url` field, when present, is a string: the inputs on which
`extract_options` cannot panic. -/
def optionsWellFormed (e : Element) : Bool :=
  match getAttr e "options" with
  | none => true
  | some s =>
    match Json.parse s with
    | some (Json.obj fields) =>
      match getField fields "url" with
      | none => true
      | some (Json.str _) => true
      | some _ => false
    | _ => false

/-- The fixed platform base URL (src/main.rs line 15). -/
def URL_BASE : String := "https://www.raiplaysound.it"

/-- Lookup in a filesystem modelled as an association list from paths to
contents; `isSome` models `Path::exists`. -/
def lookupFile (fs : List (String × String)) (p : String) : Option String :=
  (fs.find? (fun e => e.1 == p)).map (fun e => e.2)

/-- Cache path of a page fetch (src/main.rs lines 42-46): the segment of
`url` after its last slash, with the fixed suffix `.html` appended,
joined under `cacheDir`.  `none` when `url` has no slash
(`rsplit_once` fails). -/
def pageCachePath (cacheDir url : String) : Option String :=
  (afterLastSlash url).map (fun seg => cacheDir ++ "/" ++ seg ++ ".html")

/-- Cache path of a metadata fetch (src/main.rs lines 110-114): the
segment of `URL_BASE ++ url` after its last slash, used as-is, joined
under `cacheDir`. -/
def metaCachePath (cacheDir url : String) : Option String :=
  (afterLastSlash (URL_BASE ++ url)).map (fun seg => cacheDir ++ "/" ++ seg)

/-- Outcome of a cached fetch: the result, the cache state afterwards,
and the list of HTTP requests issued. -/
structure FetchOut (α : Type) where
  result : Except String α
  cache : List (String × String)
  requests : List String

/-- The read-through cache step shared verbatim by `fetch_or_read_page`
and `fetch_audio_metadata` (src/main.rs lines 48-81 and 116-149): on a
hit at `filepath` return the cached content with no network access; on a
miss issue one GET for `url`, fail hard on a non-success status (writing
nothing), and on success write the body to `filepath` before returning
it. -/
def readThrough (cache : List (String × String)) (net : String → Except Nat String)
    (url filepath : String) : FetchOut String :=
  match lookupFile cache filepath with
  | some contents => ⟨Except.ok contents, cache, []⟩
  | none =>
    match net url with
    | Except.error status =>
      ⟨Except.error ("Failed to fetch URL: " ++ url ++ ". Status: " ++ Nat.repr status),
        cache, [url]⟩
    | Except.ok body => ⟨Except.ok body, cache ++ [(filepath, body)], [url]⟩

/-- `fetch_or_read_page` (src/main.rs lines 41-82): derive the cache
path, then read through the cache. -/
def fetchOrReadPage (cache : List (String × String)) (net : String → Except Nat String)
    (url : String) (cacheDir : String) : FetchOut String :=
  match pageCachePath cacheDir url with
  | none => ⟨Except.error ("Failed to extract page name from: " ++ url), cache, []⟩
  | some filepath => readThrough cache net url filepath

/-- Resolution of a metadata document's content (src/main.rs
lines 151-169): parse as JSON, then require `audio.url` and
`audio.title` to be strings; the field errors are the fixed messages
from the source and do not mention `fullUrl`. -/
def fetchAudioMetadataFromContent (fullUrl content : String) : Except String AudioMetadata :=
  match Json.parse content with
  | none => Except.error ("Failed to parse JSON: " ++ fullUrl)
  | some j =>
    match ((j.index "audio").index "url").asStr with
    | none => Except.error "Missing field `url`"
    | some u =>
      match ((j.index "audio").index "title").asStr with
      | none => Except.error "Missing field `title`"
      | some t => Except.ok ⟨u, t⟩

/-- Resolution of a fetched metadata document: on a fetch error the
error propagates; on success the content is resolved (src/main.rs
lines 151-169 applied to the read-through result). -/
def mdResolve (fullUrl : String) (r : FetchOut String) : FetchOut AudioMetadata :=
  match r.result with
  | Except.error e => ⟨Except.error e, r.cache, r.requests⟩
  | Except.ok contents => ⟨fetchAudioMetadataFromContent fullUrl contents, r.cache, r.requests⟩

/-- `fetch_audio_metadata` (src/main.rs lines 105-170): prefix
`URL_BASE`, derive the cache path from the full URL's last segment, read
through the cache (writing the body on a successful miss before
parsing), then resolve the content. -/
def fetchAudioMetadata (cache : List (String × String)) (net : String → Except Nat String)
    (url : String) (cacheDir : String) : FetchOut AudioMetadata :=
  match metaCachePath cacheDir url with
  | none =>
    ⟨Except.error ("Failed to extract file name from: " ++ (URL_BASE ++ url)), cache, []⟩
  | some filepath => mdResolve (URL_BASE ++ url) (readThrough cache net (URL_BASE ++ url) filepath)

/-- Outcome of a download: the result, the output folder state
afterwards, and the list of HTTP requests issued. -/
structure DownloadOut where
  result : Except String Unit
  output : List (String × String)
  requests : List String

/-- `download_audio` (src/main.rs lines 172-219): if a file already
exists at the computed output path, skip (success, no request, no
write); otherwise issue one GET for `m.url`, fail hard on a non-success
status, and on success write the body to the output path. -/
def downloadAudio (output : List (String × String)) (net : String → Except Nat String)
    (m : AudioMetadata) (folder : String) (idx : Nat) : DownloadOut :=
  let path := outputPath folder m idx
  match lookupFile output path with
  | some _ => ⟨Except.ok (), output, []⟩
  | none =>
    match net m.url with
    | Except.error status =>
      ⟨Except.error ("Failed to fetch audio URL: " ++ m.url ++ ". Status: " ++
        Nat.repr status), output, [m.url]⟩
    | Except.ok body => ⟨Except.ok (), output ++ [(path, body)], [m.url]⟩

/-- State threaded through the orchestration loop, with the 1-based
indices at which metadata resolution and download were attempted. -/
structure RunState where
  cache : List (String × String)
  output : List (String × String)
  resolveAttempts : List Nat
  downloadAttempts : List Nat
  deriving Repr, DecidableEq

/-- The episode loop of `main` (src/main.rs lines 283-286): for each
extracted reference in order, resolve metadata then download, each with
`?`, so the first error is returned and ends the loop.  `idx` is the
0-based position already consumed; attempts are recorded 1-based as the
source passes `idx + 1`. -/
def episodeLoop (net : String → Except Nat String) (folder cacheDir : String) :
    List String → Nat → RunState → RunState × Except String Unit
  | [], _, st => (st, Except.ok ())
  | u :: rest, idx, st =>
    let fo := fetchAudioMetadata st.cache net u cacheDir
    let st2 : RunState := { st with
      cache := fo.cache, resolveAttempts := st.resolveAttempts ++ [idx + 1] }
    match fo.result with
    | Except.error e => (st2, Except.error e)
    | Except.ok m =>
      let st3 : RunState := { st2 with
        downloadAttempts := st2.downloadAttempts ++ [idx + 1] }
      let dl := downloadAudio st3.output net m folder (idx + 1)
      let st4 : RunState := { st3 with output := dl.output }
      match dl.result with
      | Except.error e => (st4, Except.error e)
      | Except.ok _ => episodeLoop net folder cacheDir rest (idx + 1) st4

/-- `main` after directory creation (src/main.rs lines 278-289): fetch
the page (fatal on failure), extract the episode references (via the
external HTML parse, passed as an oracle), then run the episode loop.
A panic inside `extract_options` is surfaced as an error result. -/
def runMain (net : String → Except Nat String) (parseHtml : String → List Element)
    (pageUrl folder cacheDir : String) (cache0 output0 : List (String × String)) :
    RunState × Except String Unit :=
  let fp := fetchOrReadPage cache0 net pageUrl cacheDir
  match fp.result with
  | Except.error e => (⟨fp.cache, output0, [], []⟩, Except.error e)
  | Except.ok html =>
    match extractOptions (parseHtml html) with
    | none => (⟨fp.cache, output0, [], []⟩, Except.error "panic in extract_options")
    | some urls => episodeLoop net folder cacheDir urls 0 ⟨fp.cache, output0, [], []⟩

/-- Substring test on strings, used to state what an error message does
or does not name. -/
def strContains (s sub : String) : Bool :=
  decide (sub.data <:+: s.data)

/-! ### Sanitization lemmas -/

theorem toNat_ofNat_valid (n : Nat) (h : n < 55296) : (Char.ofNat n).toNat = n := by
  have hv : n.isValidChar := Or.inl h
  simp [Char.ofNat, Char.ofNatAux, Char.toNat, hv, UInt32.toNat, BitVec.toNat_ofNatLt]

theorem toLowerChar_eq_self {c : Char} (h : ¬(65 ≤ c.toNat ∧ c.toNat ≤ 90)) :
    toLowerChar c = c := by
  rw [toLowerChar, if_neg h]

theorem toNat_toLowerChar_upper {c : Char} (h : 65 ≤ c.toNat ∧ c.toNat ≤ 90) :
    (toLowerChar c).toNat = c.toNat + 32 := by
  rw [toLowerChar, if_pos h]
  exact toNat_ofNat_valid _ (by omega)

theorem isWordChar_of_range {d : Char} (h1 : 97 ≤ d.toNat) (h2 : d.toNat ≤ 122) :
    isWordChar d = true := by
  simp only [isWordChar, Bool.or_eq_true, decide_eq_true_eq]
  omega

theorem toLowerChar_idem (c : Char) : toLowerChar (toLowerChar c) = toLowerChar c := by
  by_cases h : 65 ≤ c.toNat ∧ c.toNat ≤ 90
  · have hn := toNat_toLowerChar_upper h
    exact toLowerChar_eq_self (by omega)
  · rw [toLowerChar_eq_self h]
    exact toLowerChar_eq_self h

theorem sanitizeChar_keep {c : Char} (hk : (isWordChar c || isSpaceChar c || c == '-') = true) :
    sanitizeChar c = c := by
  rw [sanitizeChar, if_pos hk]

theorem sanitizeChar_replace {c : Char}
    (hk : ¬((isWordChar c || isSpaceChar c || c == '-') = true)) : sanitizeChar c = '_' := by
  rw [sanitizeChar, if_neg hk]

theorem sanitizeChar_toLowerChar_sanitizeChar (c : Char) :
    sanitizeChar (toLowerChar (sanitizeChar c)) = toLowerChar (sanitizeChar c) := by
  by_cases hk : (isWordChar c || isSpaceChar c || c == '-') = true
  · rw [sanitizeChar_keep hk]
    by_cases h : 65 ≤ c.toNat ∧ c.toNat ≤ 90
    · have hn := toNat_toLowerChar_upper h
      have hw : isWordChar (toLowerChar c) = true :=
        isWordChar_of_range (by omega) (by omega)
      exact sanitizeChar_keep (by simp [hw])
    · rw [toLowerChar_eq_self h]
      exact sanitizeChar_keep hk
  · rw [sanitizeChar_replace hk]
    rfl

theorem sanChar_idem (c : Char) :
    toLowerChar (sanitizeChar (toLowerChar (sanitizeChar c))) = toLowerChar (sanitizeChar c) := by
  rw [sanitizeChar_toLowerChar_sanitizeChar, toLowerChar_idem]

theorem sanitize_data (s : String) :
    (sanitize s).data = s.data.map (fun c => toLowerChar (sanitizeChar c)) := by
  simp [sanitize, List.map_map, Function.comp]

theorem sanChar_eq (c : Char) :
    toLowerChar (sanitizeChar c) =
      if isWordChar c || isSpaceChar c || c == '-' then toLowerChar c else '_' := by
  by_cases hk : (isWordChar c || isSpaceChar c || c == '-') = true
  · rw [sanitizeChar_keep hk, if_pos hk]
  · rw [sanitizeChar_replace hk, if_neg hk]
    rfl

theorem sanList_idem (l : List Char) :
    (((l.map sanitizeChar).map toLowerChar).map sanitizeChar).map toLowerChar =
      (l.map sanitizeChar).map toLowerChar := by
  induction l with
  | nil => rfl
  | cons c cs ih =>
    simp only [List.map_cons]
    rw [sanChar_idem, ih]

/-- C3 (counterexample): the claimed value of `sanitize "Ep. #3: Finale!"`
is wrong: the space between `"."` and `"#"` survives sanitization, so the
result is `"ep_ _3_ finale_"`, not `"ep__3_ finale_"`. -/
theorem C3_counterexample :
    sanitize "Ep. #3: Finale!" = "ep_ _3_ finale_" ∧
      sanitize "Ep. #3: Finale!" ≠ "ep__3_ finale_" := by
  constructor
  · rfl
  · decide

/-- C3 (amended): sanitization keeps length, maps every character that is
a word character, whitespace, or a hyphen to its lowercase form and every
other character to an underscore, and never fails (it is a total
function); the first spec example holds as claimed, while
`sanitize "Ep. #3: Finale!"` is `"ep_ _3_ finale_"` (the claim's
`"ep__3_ finale_"` drops the space that survives between `"."` and
`"#"`). -/
theorem C3_sanitize_characterization :
    (∀ s : String, (sanitize s).data.length = s.data.length) ∧
      (∀ (s : String) (i : Nat) (c : Char), s.data[i]? = some c →
        (sanitize s).data[i]? =
          some (if isWordChar c || isSpaceChar c || c == '-' then toLowerChar c else '_')) ∧
      sanitize "I tre moschettieri - Lettura I" = "i tre moschettieri - lettura i" ∧
      sanitize "Ep. #3: Finale!" = "ep_ _3_ finale_" := by
  refine ⟨?_, ?_, rfl, rfl⟩
  · intro s
    rw [sanitize_data, List.length_map]
  · intro s i c hc
    rw [sanitize_data, List.getElem?_map, hc]
    rw [Option.map_some', sanChar_eq]

/-- C3 (witness): the characterization applied to the concrete string
`"a.b"` at position 1, whose character `'.'` becomes an underscore. -/
theorem C3_sanitize_characterization_witness :
    (sanitize "a.b").data[1]? = some '_' := by
  have h := C3_sanitize_characterization.2.1 "a.b" 1 '.' rfl
  exact h

/-- C10: sanitization is idempotent: applying the sanitizer to its own
output returns that output unchanged.  Every character of the output is
a lowercase word character, whitespace, or a hyphen (an underscore is a
word character), so the second pass replaces nothing and lowercases
nothing. -/
theorem C10_sanitize_idempotent (t : String) : sanitize (sanitize t) = sanitize t :=
  congrArg String.mk (sanList_idem t.data)

/-! ### Download skip and cache behavior -/

theorem readThrough_hit {cache : List (String × String)} {net : String → Except Nat String}
    {url filepath c : String} (hc : lookupFile cache filepath = some c) :
    readThrough cache net url filepath = ⟨Except.ok c, cache, []⟩ := by
  simp [readThrough, hc]

theorem readThrough_miss_error {cache : List (String × String)}
    {net : String → Except Nat String} {url filepath : String} {status : Nat}
    (hl : lookupFile cache filepath = none) (hn : net url = Except.error status) :
    readThrough cache net url filepath =
      ⟨Except.error ("Failed to fetch URL: " ++ url ++ ". Status: " ++ Nat.repr status),
        cache, [url]⟩ := by
  simp [readThrough, hl, hn]

theorem readThrough_miss_ok {cache : List (String × String)}
    {net : String → Except Nat String} {url filepath body : String}
    (hl : lookupFile cache filepath = none) (hn : net url = Except.ok body) :
    readThrough cache net url filepath = ⟨Except.ok body, cache ++ [(filepath, body)], [url]⟩ := by
  simp [readThrough, hl, hn]

theorem fetchOrReadPage_some {cache : List (String × String)}
    {net : String → Except Nat String} {url cacheDir fp : String}
    (hp : pageCachePath cacheDir url = some fp) :
    fetchOrReadPage cache net url cacheDir = readThrough cache net url fp := by
  unfold fetchOrReadPage
  rw [hp]

theorem fetchAudioMetadata_some {cache : List (String × String)}
    {net : String → Except Nat String} {url cacheDir fp : String}
    (hp : metaCachePath cacheDir url = some fp) :
    fetchAudioMetadata cache net url cacheDir =
      mdResolve (URL_BASE ++ url) (readThrough cache net (URL_BASE ++ url) fp) := by
  unfold fetchAudioMetadata
  rw [hp]

/-- C4: when a file already exists at the computed output path,
`download_audio` returns success, issues no network request, and leaves
the output folder (including the existing file's content) unchanged. -/
theorem C4_skip_on_exists (output : List (String × String)) (net : String → Except Nat String)
    (m : AudioMetadata) (folder : String) (idx : Nat)
    (h : (lookupFile output (outputPath folder m idx)).isSome = true) :
    downloadAudio output net m folder idx = ⟨Except.ok (), output, []⟩ := by
  obtain ⟨c, hc⟩ := Option.isSome_iff_exists.mp h
  simp [downloadAudio, hc]

/-- C4 (witness): a concrete skip: the output file for index 1 and title
`"t"` exists, so the download succeeds with zero requests even against a
network that fails every request. -/
theorem C4_skip_on_exists_witness :
    downloadAudio [("out/001 - t.mp3", "old")] (fun _ => Except.error 500)
      ⟨"https://m/x.mp3", "t"⟩ "out" 1 =
      ⟨Except.ok (), [("out/001 - t.mp3", "old")], []⟩ :=
  C4_skip_on_exists _ _ _ _ _ (by rfl)

/-- C5: cache paths are a deterministic function of the URL's final
segment: a page fetch appends the fixed suffix `.html` to the segment,
a metadata fetch uses the segment of `URL_BASE ++ url` as-is, any two
URLs with equal final segments get equal cache paths, and on a cache
hit two such URLs read the same cache entry regardless of the network. -/
theorem C5_cache_key_derivation :
    (∀ cacheDir url seg : String, afterLastSlash url = some seg →
        pageCachePath cacheDir url = some (cacheDir ++ "/" ++ seg ++ ".html")) ∧
      (∀ cacheDir url seg : String, afterLastSlash (URL_BASE ++ url) = some seg →
        metaCachePath cacheDir url = some (cacheDir ++ "/" ++ seg)) ∧
      (∀ cacheDir u1 u2 : String, afterLastSlash u1 = afterLastSlash u2 →
        pageCachePath cacheDir u1 = pageCachePath cacheDir u2) ∧
      (∀ cacheDir u1 u2 : String,
        afterLastSlash (URL_BASE ++ u1) = afterLastSlash (URL_BASE ++ u2) →
        metaCachePath cacheDir u1 = metaCachePath cacheDir u2) ∧
      (∀ (cache : List (String × String)) (net1 net2 : String → Except Nat String)
        (cacheDir u1 u2 p c : String),
        pageCachePath cacheDir u1 = some p → pageCachePath cacheDir u2 = some p →
        lookupFile cache p = some c →
        fetchOrReadPage cache net1 u1 cacheDir = ⟨Except.ok c, cache, []⟩ ∧
          fetchOrReadPage cache net2 u2 cacheDir = ⟨Except.ok c, cache, []⟩) := by
  refine ⟨?_, ?_, ?_, ?_, ?_⟩
  · intro cacheDir url seg h
    rw [pageCachePath, h, Option.map_some']
  · intro cacheDir url seg h
    rw [metaCachePath, h, Option.map_some']
  · intro cacheDir u1 u2 h
    rw [pageCachePath, pageCachePath, h]
  · intro cacheDir u1 u2 h
    rw [metaCachePath, metaCachePath, h]
  · intro cache net1 net2 cacheDir u1 u2 p c h1 h2 hc
    exact ⟨by rw [fetchOrReadPage_some h1, readThrough_hit hc],
      by rw [fetchOrReadPage_some h2, readThrough_hit hc]⟩

/-- C5 (witness): the two distinct URLs `http://a/x` and `http://b/x`
share the final segment `x`, so with `cc/x.html` cached both fetches
return the cached content with no request. -/
theorem C5_cache_key_derivation_witness :
    fetchOrReadPage [("cc/x.html", "C")] (fun _ => Except.error 500) "http://a/x" "cc" =
        ⟨Except.ok "C", [("cc/x.html", "C")], []⟩ ∧
      fetchOrReadPage [("cc/x.html", "C")] (fun _ => Except.error 404) "http://b/x" "cc" =
        ⟨Except.ok "C", [("cc/x.html", "C")], []⟩ :=
  C5_cache_key_derivation.2.2.2.2 [("cc/x.html", "C")] (fun _ => Except.error 500)
    (fun _ => Except.error 404) "cc" "http://a/x" "http://b/x" "cc/x.html" "C" rfl rfl rfl

/-- C6: on a cache miss, a non-success HTTP status is a hard failure
whose message carries the URL and the status, and the cache is left
unchanged (no cache file written); on success the full response body is
written to the derived cache path in the returned cache state.  Stated
for both the page fetch and the metadata fetch. -/
theorem C6_cache_miss_behavior :
    (∀ (cache : List (String × String)) (net : String → Except Nat String)
        (url cacheDir fp : String) (status : Nat),
        pageCachePath cacheDir url = some fp → lookupFile cache fp = none →
        net url = Except.error status →
        fetchOrReadPage cache net url cacheDir =
          ⟨Except.error ("Failed to fetch URL: " ++ url ++ ". Status: " ++ Nat.repr status),
            cache, [url]⟩) ∧
      (∀ (cache : List (String × String)) (net : String → Except Nat String)
        (url cacheDir fp body : String),
        pageCachePath cacheDir url = some fp → lookupFile cache fp = none →
        net url = Except.ok body →
        fetchOrReadPage cache net url cacheDir =
          ⟨Except.ok body, cache ++ [(fp, body)], [url]⟩) ∧
      (∀ (cache : List (String × String)) (net : String → Except Nat String)
        (url cacheDir fp : String) (status : Nat),
        metaCachePath cacheDir url = some fp → lookupFile cache fp = none →
        net (URL_BASE ++ url) = Except.error status →
        fetchAudioMetadata cache net url cacheDir =
          ⟨Except.error ("Failed to fetch URL: " ++ (URL_BASE ++ url) ++ ". Status: " ++
            Nat.repr status), cache, [URL_BASE ++ url]⟩) ∧
      (∀ (cache : List (String × String)) (net : String → Except Nat String)
        (url cacheDir fp body : String),
        metaCachePath cacheDir url = some fp → lookupFile cache fp = none →
        net (URL_BASE ++ url) = Except.ok body →
        fetchAudioMetadata cache net url cacheDir =
          ⟨fetchAudioMetadataFromContent (URL_BASE ++ url) body,
            cache ++ [(fp, body)], [URL_BASE ++ url]⟩) := by
  refine ⟨?_, ?_, ?_, ?_⟩
  · intro cache net url cacheDir fp status hp hl hn
    rw [fetchOrReadPage_some hp, readThrough_miss_error hl hn]
  · intro cache net url cacheDir fp body hp hl hn
    rw [fetchOrReadPage_some hp, readThrough_miss_ok hl hn]
  · intro cache net url cacheDir fp status hp hl hn
    rw [fetchAudioMetadata_some hp, readThrough_miss_error hl hn]
    rfl
  · intro cache net url cacheDir fp body hp hl hn
    rw [fetchAudioMetadata_some hp, readThrough_miss_ok hl hn]
    rfl

/-- C6 (witness): a concrete miss against a network answering 404: the
fetch fails with a message carrying the URL and the status, and the
(empty) cache stays empty. -/
theorem C6_cache_miss_behavior_witness :
    fetchOrReadPage [] (fun _ => Except.error 404) "http://a/y" "cc" =
      ⟨Except.error "Failed to fetch URL: http://a/y. Status: 404", [], ["http://a/y"]⟩ :=
  C6_cache_miss_behavior.1 [] (fun _ => Except.error 404) "http://a/y" "cc" "cc/y.html" 404
    rfl rfl rfl

/-! ### Orchestration loop lemmas -/

theorem episodeLoop_nil (net : String → Except Nat String) (folder cacheDir : String)
    (idx : Nat) (st : RunState) :
    episodeLoop net folder cacheDir [] idx st = (st, Except.ok ()) := rfl

theorem episodeLoop_cons (net : String → Except Nat String) (folder cacheDir u : String)
    (rest : List String) (idx : Nat) (st : RunState) :
    episodeLoop net folder cacheDir (u :: rest) idx st =
      match (fetchAudioMetadata st.cache net u cacheDir).result with
      | Except.error e =>
        (⟨(fetchAudioMetadata st.cache net u cacheDir).cache, st.output,
          st.resolveAttempts ++ [idx + 1], st.downloadAttempts⟩, Except.error e)
      | Except.ok m =>
        match (downloadAudio st.output net m folder (idx + 1)).result with
        | Except.error e =>
          (⟨(fetchAudioMetadata st.cache net u cacheDir).cache,
            (downloadAudio st.output net m folder (idx + 1)).output,
            st.resolveAttempts ++ [idx + 1], st.downloadAttempts ++ [idx + 1]⟩, Except.error e)
        | Except.ok _ =>
          episodeLoop net folder cacheDir rest (idx + 1)
            ⟨(fetchAudioMetadata st.cache net u cacheDir).cache,
              (downloadAudio st.output net m folder (idx + 1)).output,
              st.resolveAttempts ++ [idx + 1], st.downloadAttempts ++ [idx + 1]⟩ := rfl

theorem episodeLoop_cons_resolve_error {net : String → Except Nat String}
    {folder cacheDir u : String} {rest : List String} {idx : Nat} {st : RunState} {e : String}
    (h : (fetchAudioMetadata st.cache net u cacheDir).result = Except.error e) :
    episodeLoop net folder cacheDir (u :: rest) idx st =
      (⟨(fetchAudioMetadata st.cache net u cacheDir).cache, st.output,
        st.resolveAttempts ++ [idx + 1], st.downloadAttempts⟩, Except.error e) := by
  rw [episodeLoop_cons, h]

theorem episodeLoop_cons_resolved {net : String → Except Nat String}
    {folder cacheDir u : String} {rest : List String} {idx : Nat} {st : RunState}
    {m : AudioMetadata}
    (hres : (fetchAudioMetadata st.cache net u cacheDir).result = Except.ok m) :
    episodeLoop net folder cacheDir (u :: rest) idx st =
      match (downloadAudio st.output net m folder (idx + 1)).result with
      | Except.error e =>
        (⟨(fetchAudioMetadata st.cache net u cacheDir).cache,
          (downloadAudio st.output net m folder (idx + 1)).output,
          st.resolveAttempts ++ [idx + 1], st.downloadAttempts ++ [idx + 1]⟩, Except.error e)
      | Except.ok _ =>
        episodeLoop net folder cacheDir rest (idx + 1)
          ⟨(fetchAudioMetadata st.cache net u cacheDir).cache,
            (downloadAudio st.output net m folder (idx + 1)).output,
            st.resolveAttempts ++ [idx + 1], st.downloadAttempts ++ [idx + 1]⟩ := by
  rw [episodeLoop_cons, hres]

theorem episodeLoop_cons_download_error {net : String → Except Nat String}
    {folder cacheDir u : String} {rest : List String} {idx : Nat} {st : RunState}
    {m : AudioMetadata} {e : String}
    (hres : (fetchAudioMetadata st.cache net u cacheDir).result = Except.ok m)
    (hdl : (downloadAudio st.output net m folder (idx + 1)).result = Except.error e) :
    episodeLoop net folder cacheDir (u :: rest) idx st =
      (⟨(fetchAudioMetadata st.cache net u cacheDir).cache,
        (downloadAudio st.output net m folder (idx + 1)).output,
        st.resolveAttempts ++ [idx + 1], st.downloadAttempts ++ [idx + 1]⟩, Except.error e) := by
  rw [episodeLoop_cons_resolved hres, hdl]

theorem episodeLoop_cons_ok {net : String → Except Nat String}
    {folder cacheDir u : String} {rest : List String} {idx : Nat} {st : RunState}
    {m : AudioMetadata}
    (hres : (fetchAudioMetadata st.cache net u cacheDir).result = Except.ok m)
    (hdl : (downloadAudio st.output net m folder (idx + 1)).result = Except.ok ()) :
    episodeLoop net folder cacheDir (u :: rest) idx st =
      episodeLoop net folder cacheDir rest (idx + 1)
        ⟨(fetchAudioMetadata st.cache net u cacheDir).cache,
          (downloadAudio st.output net m folder (idx + 1)).output,
          st.resolveAttempts ++ [idx + 1], st.downloadAttempts ++ [idx + 1]⟩ := by
  rw [episodeLoop_cons_resolved hres, hdl]

theorem episodeLoop_downloadAttempts_range (net : String → Except Nat String)
    (folder cacheDir : String) :
    ∀ (urls : List String) (idx : Nat) (st : RunState), ∃ k, k ≤ urls.length ∧
      ((episodeLoop net folder cacheDir urls idx st).1).downloadAttempts =
        st.downloadAttempts ++ List.range' (idx + 1) k := by
  intro urls
  induction urls with
  | nil =>
    intro idx st
    exact ⟨0, Nat.zero_le _, by simp [episodeLoop_nil]⟩
  | cons u rest ih =>
    intro idx st
    cases hres : (fetchAudioMetadata st.cache net u cacheDir).result with
    | error e =>
      refine ⟨0, Nat.zero_le _, ?_⟩
      rw [episodeLoop_cons_resolve_error hres]
      simp
    | ok m =>
      cases hdl : (downloadAudio st.output net m folder (idx + 1)).result with
      | error e =>
        refine ⟨1, by simp, ?_⟩
        rw [episodeLoop_cons_download_error hres hdl]
        simp [List.range'_one]
      | ok v =>
        cases v
        obtain ⟨k, hk, hEq⟩ := ih (idx + 1)
          ⟨(fetchAudioMetadata st.cache net u cacheDir).cache,
            (downloadAudio st.output net m folder (idx + 1)).output,
            st.resolveAttempts ++ [idx + 1], st.downloadAttempts ++ [idx + 1]⟩
        refine ⟨k + 1, by simp; omega, ?_⟩
        rw [episodeLoop_cons_ok hres hdl, hEq]
        simp [List.range'_succ, List.append_assoc]

theorem format3_length (n : Nat) : (format3 n).length = max 3 (Nat.repr n).length := by
  simp only [format3]
  by_cases h : (Nat.repr n).length < 3
  · rw [if_pos h, String.length_append, String.length_mk, List.length_replicate]
    omega
  · rw [if_neg h]
    omega

/-- C7: the output filename is `format3 idx ++ " - " ++ sanitize title
++ ".mp3"` with the index's decimal form zero-padded to a minimum width
of 3; index 7 with title `"ep1"` yields `"007 - ep1.mp3"`; and the loop
passes 1-based consecutive positional indices to the downloader (the
attempted download indices are always `1, 2, ...` up to some prefix of
the extracted sequence). -/
theorem C7_output_filename :
    (∀ (idx : Nat) (title : String),
        outputFileName idx title = format3 idx ++ " - " ++ sanitize title ++ ".mp3") ∧
      (∀ n : Nat, (format3 n).length = max 3 (Nat.repr n).length) ∧
      outputFileName 7 "ep1" = "007 - ep1.mp3" ∧
      (∀ (net : String → Except Nat String) (folder cacheDir : String) (urls : List String)
        (st : RunState), ∃ k, k ≤ urls.length ∧
          ((episodeLoop net folder cacheDir urls 0 st).1).downloadAttempts =
            st.downloadAttempts ++ List.range' 1 k) :=
  ⟨fun _ _ => rfl, format3_length, rfl,
    fun net folder cacheDir urls st =>
      episodeLoop_downloadAttempts_range net folder cacheDir urls 0 st⟩

/-! ### Per-episode failure propagation -/

/-- Network oracle for the three-episode scenario: the audio payloads of
episodes one and three succeed, everything else (in particular the
metadata document of episode two) answers 404. -/
def C1net : String → Except Nat String := fun s =>
  if s == "https://m/a1.mp3" then Except.ok "b1"
  else if s == "https://m/a3.mp3" then Except.ok "b3"
  else Except.error 404

/-- Cached metadata document of episode one. -/
def C1json1 : String :=
  "\x7b\"audio\": \x7b\"url\": \"https://m/a1.mp3\", \"title\": \"Ep One\"\x7d\x7d"

/-- Cached metadata document of episode three. -/
def C1json3 : String :=
  "\x7b\"audio\": \x7b\"url\": \"https://m/a3.mp3\", \"title\": \"Ep Three\"\x7d\x7d"

/-- Cache holding the metadata of episodes one and three; episode two is
a cache miss and its fetch fails. -/
def C1cache : List (String × String) :=
  [("cc/a1.json", C1json1), ("cc/a3.json", C1json3)]

/-- Three extracted episode references. -/
def C1urls : List String := ["/audio/a1.json", "/audio/a2.json", "/audio/a3.json"]

/-- The episode loop run on the three references. -/
def C1run : RunState × Except String Unit :=
  episodeLoop C1net "out" "cc" C1urls 0 ⟨C1cache, [], [], []⟩

/-- C1 (counterexample): with three extracted references whose second
fails metadata resolution (404 on a cache miss), the loop resolves
episodes 1 and 2 only, downloads only episode 1, never attempts episode
3 in either stage, and aborts the whole run with the episode-level
error — refuting both halves of the claim at a concrete input. -/
theorem C1_counterexample :
    C1urls.length = 3 ∧
      C1run.1.resolveAttempts = [1, 2] ∧
      C1run.1.downloadAttempts = [1] ∧
      ¬(3 ∈ C1run.1.resolveAttempts) ∧
      ¬(3 ∈ C1run.1.downloadAttempts) ∧
      C1run.1.output = [("out/001 - ep one.mp3", "b1")] ∧
      C1run.2 =
        Except.error "Failed to fetch URL: https://www.raiplaysound.it/audio/a2.json. Status: 404" := by
  refine ⟨rfl, rfl, rfl, ?_, ?_, rfl, rfl⟩
  · decide
  · decide

/-- C1 (amended): an episode-level failure is not isolated: when
metadata resolution (or the download) of the episode at the head of the
remaining sequence fails, the loop records that one attempt and returns
the error immediately, so no subsequent episode is resolved or
downloaded; episode failures abort the run exactly like a page-fetch
failure. -/
theorem C1_episode_failure_aborts_run :
    (∀ (net : String → Except Nat String) (folder cacheDir u : String) (rest : List String)
        (idx : Nat) (st : RunState) (e : String),
        (fetchAudioMetadata st.cache net u cacheDir).result = Except.error e →
        episodeLoop net folder cacheDir (u :: rest) idx st =
          (⟨(fetchAudioMetadata st.cache net u cacheDir).cache, st.output,
            st.resolveAttempts ++ [idx + 1], st.downloadAttempts⟩, Except.error e)) ∧
      (∀ (net : String → Except Nat String) (folder cacheDir u : String) (rest : List String)
        (idx : Nat) (st : RunState) (m : AudioMetadata) (e : String),
        (fetchAudioMetadata st.cache net u cacheDir).result = Except.ok m →
        (downloadAudio st.output net m folder (idx + 1)).result = Except.error e →
        episodeLoop net folder cacheDir (u :: rest) idx st =
          (⟨(fetchAudioMetadata st.cache net u cacheDir).cache,
            (downloadAudio st.output net m folder (idx + 1)).output,
            st.resolveAttempts ++ [idx + 1], st.downloadAttempts ++ [idx + 1]⟩,
            Except.error e)) := by
  constructor
  · intro net folder cacheDir u rest idx st e h
    exact episodeLoop_cons_resolve_error h
  · intro net folder cacheDir u rest idx st m e hres hdl
    exact episodeLoop_cons_download_error hres hdl

/-- C1 (witness): against a network that always answers 404, a
two-episode run aborts on the first episode's resolution failure with
one recorded attempt and no downloads. -/
theorem C1_episode_failure_aborts_run_witness :
    episodeLoop (fun _ => Except.error 404) "out" "cc" ["/a/x.json", "/a/y.json"] 0
        ⟨[], [], [], []⟩ =
      (⟨[], [], [1], []⟩,
        Except.error "Failed to fetch URL: https://www.raiplaysound.it/a/x.json. Status: 404") :=
  C1_episode_failure_aborts_run.1 (fun _ => Except.error 404) "out" "cc" "/a/x.json"
    ["/a/y.json"] 0 ⟨[], [], [], []⟩ _ rfl

/-- Metadata document that parses as JSON but has no `audio.title`. -/
def C2json : String := "\x7b\"audio\": \x7b\"url\": \"https://m/a.mp3\"\x7d\x7d"

/-- C2 (counterexample): a parsed metadata document missing
`audio.title` fails with the fixed message `Missing field `title``,
which names the missing field but does not contain the source URL —
refuting the claim that the error names the URL. -/
theorem C2_counterexample :
    fetchAudioMetadataFromContent "https://www.raiplaysound.it/audio/a.json" C2json =
        Except.error "Missing field `title`" ∧
      strContains "Missing field `title`" "https://www.raiplaysound.it/audio/a.json" = false ∧
      strContains "Missing field `title`" "title" = true := by
  refine ⟨rfl, ?_, ?_⟩
  · decide
  · decide

theorem fetchAudioMetadataFromContent_parsed {fullUrl content : String} {j : Json}
    (hp : Json.parse content = some j) :
    fetchAudioMetadataFromContent fullUrl content =
      match ((j.index "audio").index "url").asStr with
      | none => Except.error "Missing field `url`"
      | some u =>
        match ((j.index "audio").index "title").asStr with
        | none => Except.error "Missing field `title`"
        | some t => Except.ok ⟨u, t⟩ := by
  unfold fetchAudioMetadataFromContent
  rw [hp]

/-- C2 (amended): for a cached metadata document whose JSON parses but
whose `audio.url` or `audio.title` is missing or not a string,
resolution fails with the fixed error naming the missing field — but
not the source URL — no `AudioMetadata` is produced, and the loop
attempts no download for that episode (it aborts instead, per C1). -/
theorem C2_missing_field_behavior :
    (∀ (fullUrl content : String) (j : Json), Json.parse content = some j →
        (((j.index "audio").index "url").asStr = none →
          fetchAudioMetadataFromContent fullUrl content = Except.error "Missing field `url`") ∧
        (∀ u : String, ((j.index "audio").index "url").asStr = some u →
          ((j.index "audio").index "title").asStr = none →
          fetchAudioMetadataFromContent fullUrl content =
            Except.error "Missing field `title`")) ∧
      (∀ (net : String → Except Nat String) (folder cacheDir u : String) (rest : List String)
        (idx : Nat) (st : RunState) (e : String),
        (fetchAudioMetadata st.cache net u cacheDir).result = Except.error e →
        ((episodeLoop net folder cacheDir (u :: rest) idx st).1).downloadAttempts =
            st.downloadAttempts ∧
          (episodeLoop net folder cacheDir (u :: rest) idx st).2 = Except.error e) := by
  constructor
  · intro fullUrl content j hp
    constructor
    · intro hu
      rw [fetchAudioMetadataFromContent_parsed hp, hu]
    · intro u hu ht
      rw [fetchAudioMetadataFromContent_parsed hp, hu, ht]
  · intro net folder cacheDir u rest idx st e h
    rw [episodeLoop_cons_resolve_error h]
    exact ⟨rfl, rfl⟩

/-- C2 (witness): the amended statement applied to the concrete
document missing `audio.title`. -/
theorem C2_missing_field_behavior_witness :
    fetchAudioMetadataFromContent "https://www.raiplaysound.it/audio/a.json" C2json =
      Except.error "Missing field `title`" :=
  (C2_missing_field_behavior.1 "https://www.raiplaysound.it/audio/a.json" C2json
      (Json.obj [("audio", Json.obj [("url", Json.str "https://m/a.mp3")])]) rfl).2
    "https://m/a.mp3" rfl rfl

/-! ### Extraction -/

theorem extractOptions_wellFormed : ∀ doc : List Element,
    (doc.all (fun e => !(e.tag == "rps-play-with-labels") || optionsWellFormed e)) = true →
    extractOptions doc = some (specExtractUrls doc) := by
  intro doc
  induction doc with
  | nil => intro _; rfl
  | cons e rest ih =>
    intro hall
    rw [List.all_cons, Bool.and_eq_true] at hall
    obtain ⟨he, hrest⟩ := hall
    have ihr := ih hrest
    by_cases ht : (e.tag == "rps-play-with-labels") = true
    · rw [ht, Bool.not_true, Bool.false_or] at he
      cases hga : getAttr e "options" with
      | none =>
        simp [extractOptions, specExtractUrls, List.filterMap_cons, elemUrl, ht, hga, ihr]
      | some s =>
        simp only [optionsWellFormed, hga] at he
        cases hp : Json.parse s with
        | none => simp only [hp] at he; simp at he
        | some j =>
          simp only [hp] at he
          cases j with
          | obj fields =>
            cases hgf : getField fields "url" with
            | none =>
              simp [extractOptions, specExtractUrls, List.filterMap_cons, elemUrl, ht, hga,
                hp, hgf, ihr]
            | some v =>
              simp only [hgf] at he
              cases v with
              | str u =>
                simp [extractOptions, specExtractUrls, List.filterMap_cons, elemUrl, ht, hga,
                  hp, hgf, ihr, Json.asStr]
              | null => simp at he
              | bool b => simp at he
              | num n => simp at he
              | arr xs => simp at he
              | obj fs => simp at he
          | null => simp at he
          | bool b => simp at he
          | num n => simp at he
          | str s2 => simp at he
          | arr xs => simp at he
    · have ht2 : (e.tag == "rps-play-with-labels") = false := by
        simpa using ht
      simp [extractOptions, specExtractUrls, List.filterMap_cons, elemUrl, ht2, ihr]

theorem extractOptions_no_matching : ∀ doc : List Element,
    (∀ e ∈ doc, ¬(e.tag = "rps-play-with-labels")) → extractOptions doc = some [] := by
  intro doc
  induction doc with
  | nil => intro _; rfl
  | cons e rest ih =>
    intro h
    have ht : (e.tag == "rps-play-with-labels") = false := by
      have hne := h e (List.mem_cons_self e rest)
      simpa using hne
    have ihr := ih (fun x hx => h x (List.mem_cons_of_mem e hx))
    simp [extractOptions, ht, ihr]

/-- C8: on every document whose matching elements carry well-formed
`options` attributes (parseable JSON objects whose `url` value, when
present, is a string), extraction succeeds and yields exactly the `url`
string values of the matching elements in document order, duplicates
preserved, silently skipping elements without the attribute or without
the key; the spec's literal one-element input yields exactly
`["audio/x.json"]`, and a document with no matching elements yields the
empty sequence. -/
theorem C8_extraction_determinism :
    (∀ doc : List Element,
        (doc.all (fun e => !(e.tag == "rps-play-with-labels") || optionsWellFormed e)) = true →
        extractOptions doc = some (specExtractUrls doc)) ∧
      extractOptions
          [⟨"rps-play-with-labels", [("options", "\x7b\"url\": \"audio/x.json\"\x7d")]⟩] =
        some ["audio/x.json"] ∧
      (∀ doc : List Element, (∀ e ∈ doc, ¬(e.tag = "rps-play-with-labels")) →
        extractOptions doc = some []) :=
  ⟨extractOptions_wellFormed, rfl, extractOptions_no_matching⟩

/-- C8 (witness): the refinement applied to the spec's literal input,
and the empty result on a concrete document with no matching element. -/
theorem C8_extraction_determinism_witness :
    extractOptions
        [⟨"rps-play-with-labels", [("options", "\x7b\"url\": \"audio/x.json\"\x7d")]⟩] =
      some (specExtractUrls
        [⟨"rps-play-with-labels", [("options", "\x7b\"url\": \"audio/x.json\"\x7d")]⟩]) ∧
    extractOptions [⟨"div", []⟩] = some [] :=
  ⟨C8_extraction_determinism.1 _ rfl, C8_extraction_determinism.2.2 [⟨"div", []⟩] (by decide)⟩

/-- C9: a matching element whose `options` attribute is a JSON object
whose `url` value is the number 3 makes `extract_options` panic
(`as_str().unwrap()` on a non-string), modelled here by the `none`
result — rather than skipping the element or returning an error value. -/
theorem C9_panic_on_nonstring_url :
    Json.parse "\x7b\"url\": 3\x7d" = some (Json.obj [("url", Json.num 3)]) ∧
      extractOptions [⟨"rps-play-with-labels", [("options", "\x7b\"url\": 3\x7d")]⟩] = none :=
  ⟨rfl, rfl⟩
